import Mathlib

/-!
Verification of the multimodal RAG system's hybrid retrieval and
knowledge-graph synchronization pipeline.

This file is a shallow embedding, in Lean 4, of the repository's core
operations:

* `src/knowledge_graph.py` — `_add_relationship_tx`, `update_graph_from_json`,
  `query_graph`;
* `src/vector_db.py` — `upsert_chunks`, `semantic_search`;
* `src/utils.py` — `chunk_text` (including the behaviour of the library
  splitter it delegates to, `RecursiveCharacterTextSplitter`, at the
  repository's fixed configuration), `extract_entities_and_relationships`;
* `src/hybrid_search.py` — `_generate_graph_query`, `hybrid_retrieval`;
* `src/ingestion.py` — `ingest_file`.

External collaborators (the embedding service, the text-completion service,
`json.loads`, the Qdrant and Neo4j backends) are modelled as explicit
function parameters or as small executable models, as documented at each
definition.  Strings are modelled as Lean `String`/`List Char`; `len` is the
character count, matching Python for the ASCII texts the claims exercise.
-/

/-! ## JSON values

Model of the values produced by Python's `json.loads`.  Numbers are modelled
as integers (no claim inspects numeric values beyond truthiness).  Object
fields keep their textual order; duplicate keys resolve to the last
occurrence, as in `json.loads`.  The mutual presentation (instead of nested
`List Json`) exists only so that decidable equality can be derived.
-/

mutual
inductive Json where
  | null
  | bool (b : Bool)
  | num (n : Int)
  | str (s : String)
  | arr (elems : JsonList)
  | obj (fields : JsonFields)
deriving DecidableEq

inductive JsonList where
  | nil
  | cons (hd : Json) (tl : JsonList)
deriving DecidableEq

inductive JsonFields where
  | nil
  | cons (key : String) (val : Json) (tl : JsonFields)
deriving DecidableEq
end

/-- Convert a Lean list of JSON values to the mutual-inductive spine. -/
def JsonList.ofList : List Json → JsonList
  | [] => .nil
  | j :: tl => .cons j (JsonList.ofList tl)

/-- Convert the mutual-inductive spine back to a Lean list. -/
def JsonList.toList : JsonList → List Json
  | .nil => []
  | .cons j tl => j :: tl.toList

/-- Convert a Lean association list to the mutual-inductive field spine. -/
def JsonFields.ofList : List (String × Json) → JsonFields
  | [] => .nil
  | (k, v) :: tl => .cons k v (JsonFields.ofList tl)

/-- Whether a key occurs in a JSON object's fields. -/
def JsonFields.hasKey : JsonFields → String → Bool
  | .nil, _ => false
  | .cons k _ tl, key => k = key || tl.hasKey key

/-- Python `dict.get(key)` on a parsed JSON object: the value of the last
occurrence of `key` (later duplicate keys overwrite earlier ones in
`json.loads`), or `None` (modelled as `Json.null`) when absent. -/
def JsonFields.get : JsonFields → String → Json
  | .nil, _ => .null
  | .cons k v tl, key => if tl.hasKey key then tl.get key else if k = key then v else .null

/-- Python truthiness (`bool(x)`) of a value produced by `json.loads`:
`None`, `False`, `0`, `""`, `[]` and the empty object are falsy, everything
else is truthy. -/
def Json.truthy : Json → Bool
  | .null => false
  | .bool b => b
  | .num n => n != 0
  | .str s => s ≠ ""
  | .arr .nil => false
  | .arr (.cons _ _) => true
  | .obj .nil => false
  | .obj (.cons _ _ _) => true

/-! ## Python string helpers -/

/-- Python `str.isspace` on a single character, restricted to the ASCII
whitespace characters (space, tab, newline, vertical tab, form feed,
carriage return); the claims only exercise ASCII text. -/
def pyIsSpace (c : Char) : Bool :=
  c = ' ' || c = '\t' || c = '\n' || c = '\x0b' || c = '\x0c' || c = '\r'

/-- Python `str.strip()` on a character list: drop whitespace from both
ends. -/
def pyStrip (l : List Char) : List Char :=
  ((l.dropWhile pyIsSpace).reverse.dropWhile pyIsSpace).reverse

/-- Python `str.strip()` on a `String`. -/
def pyStripStr (s : String) : String :=
  String.mk (pyStrip s.toList)

/-- Python `not raw_text or raw_text.isspace()`: true exactly when the
string is empty or consists solely of whitespace characters. -/
def pyEmptyOrSpace (s : String) : Bool :=
  s = "" || (s ≠ "" && s.toList.all pyIsSpace)

/-! ## Graph store (`src/knowledge_graph.py`)

The Neo4j graph reachable through this repository's write path consists of
`Entity` nodes keyed by their `name` property and directed typed edges
between them.  Cypher `MERGE` has create-if-absent semantics on both, so the
state is modelled as a finite set of node names and a finite set of
`(source, type, target)` edges.  Node names are modelled as `Json` values
because `_add_relationship_tx` passes the extractor's field values straight
through as query parameters, whatever their JSON type.
-/

/-- The graph store's state: `Entity` node names and typed directed edges. -/
structure Graph where
  nodes : Finset Json
  edges : Finset (Json × String × Json)
deriving DecidableEq

/-- The empty graph. -/
def Graph.empty : Graph := ⟨∅, ∅⟩

/-- The sanitization applied to a relationship type before it is spliced
into the Cypher `MERGE` query: `relationship.upper().replace(" ", "_")`
(from `_add_relationship_tx` in `src/knowledge_graph.py`).  `str.upper`
uppercases character-by-character (ASCII here) and `str.replace` with the
single-character pattern `" "` replaces each space, so the composition is
one character map. -/
def sanitize_rel_type (relationship : String) : String :=
  String.mk (relationship.toList.map
    (fun c => if c.toUpper = ' ' then '_' else c.toUpper))

/-- Model of `_add_relationship_tx` (`src/knowledge_graph.py` lines 30-59):
`MERGE` the source node, `MERGE` the target node, then `MERGE` one edge of
the sanitized relationship type between them.  `relationship.upper()`
raises `AttributeError` when the relationship value is not a string, so the
result is `none` (an exception) in that case.  Non-string source/target
values are passed through as Cypher parameters unchanged.  (Relationship
strings whose sanitized form is not a valid Cypher identifier would be
rejected by Neo4j itself — an unguarded injection surface the spec flags as
an open question in §9 and which is outside this model.) -/
def add_relationship_tx (g : Graph) (source relationship target : Json) : Option Graph :=
  match relationship with
  | .str rel =>
      some { nodes := insert target (insert source g.nodes),
             edges := insert (source, sanitize_rel_type rel, target) g.edges }
  | _ => none

/-- Outcome reported by `update_graph_from_json`: normal completion, a JSON
decode error (`except json.JSONDecodeError`), the "JSON data is not a list"
warning followed by an early return, or any other exception caught by the
final `except Exception` handler. -/
inductive UpdateOutcome where
  | completed
  | parseError
  | notAList
  | runtimeError
deriving DecidableEq

/-- One iteration of the loop body of `update_graph_from_json`: read the
three fields with `.get`, merge the triple when all three are truthy, skip
the item (with a logged warning) otherwise.  `item.get` raises
`AttributeError` when the element is not an object, so the result is `none`
(an exception) in that case. -/
def process_item (g : Graph) (item : Json) : Option Graph :=
  match item with
  | .obj fields =>
      let source := fields.get "source"
      let relationship := fields.get "relationship"
      let target := fields.get "target"
      if source.truthy && relationship.truthy && target.truthy then
        add_relationship_tx g source relationship target
      else
        some g
  | _ => none

/-- The `for item in data` loop of `update_graph_from_json`.  Each
`session.execute_write` commits its own transaction, so when an iteration
raises, the merges of all earlier iterations remain applied; the exception
is caught by the surrounding `except Exception` handler. -/
def process_items (g : Graph) : JsonList → Graph × UpdateOutcome
  | .nil => (g, .completed)
  | .cons item rest =>
      match process_item g item with
      | some g' => process_items g' rest
      | none => (g, .runtimeError)

/-- Model of `update_graph_from_json` (`src/knowledge_graph.py` lines
61-93).  `parse` stands for `json.loads`, returning `none` on a
`JSONDecodeError`.  The `source_document_id` argument is accepted but never
used by the source, so it is omitted.  Returns the resulting graph together
with the reported outcome. -/
def update_graph_from_json (parse : String → Option Json) (g : Graph)
    (json_data : String) : Graph × UpdateOutcome :=
  match parse json_data with
  | none => (g, .parseError)
  | some (.arr items) => process_items g items
  | some _ => (g, .notAList)

/-! ## Entity extraction (`src/utils.py`) -/

/-- The message object returned by `llm.invoke` (a LangChain chat model's
`AIMessage`); `src/hybrid_search.py` reads its `content` attribute. -/
structure AIMessage where
  content : String
deriving DecidableEq

/-- Outcome of a call to the text-completion service: a response message,
or a raised exception. -/
inductive LLMResult where
  | ok (message : AIMessage)
  | failure (e : String)

/-- What `extract_entities_and_relationships` actually returns: either the
raw response object from `llm.invoke` (success path) or a Python string
(the `"[]"` fallback of the exception handler). -/
inductive ExtractOutput where
  | message (m : AIMessage)
  | text (s : String)
deriving DecidableEq

/-- Whether the extractor's return value is a Python string. -/
def ExtractOutput.isText : ExtractOutput → Bool
  | .message _ => false
  | .text _ => true

/-- Model of `extract_entities_and_relationships` (`src/utils.py` lines
98-142).  `prompt` stands for the fixed instruction template (pure data
interpolating the chunk text; its wording is irrelevant to every claim) and
`invoke` for `llm.invoke`.  On success the function returns `response`
itself — the message object, not its string content; on an exception it
returns the string `"[]"`. -/
def extract_entities_and_relationships (prompt : String → String)
    (invoke : String → LLMResult) (text : String) : ExtractOutput :=
  match invoke (prompt text) with
  | .ok response => .message response
  | .failure _ => .text "[]"

/-- What happens when `ingest_file` feeds `extract_entities_and_relationships`'s
return value to `update_graph_from_json`: a string goes through JSON
parsing as usual, while a message object makes `json.loads` raise
`TypeError`, which the final `except Exception` handler catches — the graph
is left unchanged. -/
def update_graph_from_data (parse : String → Option Json) (g : Graph) :
    ExtractOutput → Graph × UpdateOutcome
  | .text s => update_graph_from_json parse g s
  | .message _ => (g, .runtimeError)

/-! ## Vector store (`src/vector_db.py`)

A Qdrant collection is keyed by point id: writing a point with an existing
id replaces that record (last-write-wins), otherwise the point is added.
The store is modelled as a list of `(id, record)` pairs so that record
counts are observable; `upsertPoint` preserves the position of a replaced
id.  Vector values are an arbitrary type `V` (the embedding service is an
external collaborator; no claim inspects vector contents).
-/

/-- One point write with Qdrant upsert semantics: replace the record at an
existing id, else append. -/
def upsertPoint (store : List (Nat × α)) (p : Nat × α) : List (Nat × α) :=
  if store.any (fun q => q.1 == p.1) then
    store.map (fun q => if q.1 == p.1 then p else q)
  else
    store ++ [p]

/-- A batched `client.upsert(points=...)` call: the points are applied in
order, each with last-write-wins semantics. -/
def upsertPoints (store : List (Nat × α)) (ps : List (Nat × α)) : List (Nat × α) :=
  ps.foldl upsertPoint store

/-- The metadata dict `{"source_file": filename, "chunk_index": i}` built by
`ingest_file` for each chunk. -/
structure ChunkMeta where
  source_file : String
  chunk_index : Nat
deriving DecidableEq

/-- The payload stored with each point: `{"text": chunk, **metadata}`. -/
structure VPayload where
  text : String
  source_file : String
  chunk_index : Nat
deriving DecidableEq

/-- Model of `upsert_chunks` (`src/vector_db.py` lines 54-93).
`embed_documents` stands for the embedding service's batch call; an
exception anywhere in the `try` block is caught and leaves the store
untouched.  Point ids are the bare `enumerate` indices `0, 1, 2, ...` —
they restart at zero on every call. -/
def upsert_chunks (embed_documents : List String → Except String (List V))
    (store : List (Nat × V × VPayload)) (chunks : List String)
    (metadatas : List ChunkMeta) : List (Nat × V × VPayload) :=
  if chunks.isEmpty then store
  else
    match embed_documents chunks with
    | .error _ => store
    | .ok vectors =>
        let points := (vectors.zip (chunks.zip metadatas)).enum.map
          (fun ivcm => (ivcm.1, ivcm.2.1,
            { text := ivcm.2.2.1,
              source_file := ivcm.2.2.2.source_file,
              chunk_index := ivcm.2.2.2.chunk_index }))
        upsertPoints store points

/-- A search hit as consumed by `hybrid_retrieval`: only the payload's
`text` entry is ever read (`hit.payload['text']`). -/
structure Hit where
  text : String
deriving DecidableEq

/-- A call issued to an external service by `semantic_search`, recorded so
that "the service was not invoked" is a provable statement. -/
inductive ServiceCall where
  | embedQueryCall (q : String)
  | searchCall (limit : Nat)
deriving DecidableEq

/-- Model of `semantic_search` (`src/vector_db.py` lines 98-131).
`embed_query` stands for the embedding service's single-query call and
`search` for the Qdrant search request; exceptions inside the `try` block
degrade to an empty result list.  The returned trace lists the external
calls the function issued, in order. -/
def semantic_search (embed_query : String → Except String V)
    (search : V → Nat → Except String (List Hit)) (query_text : String)
    (limit : Nat := 5) : List Hit × List ServiceCall :=
  if query_text = "" then ([], [])
  else
    match embed_query query_text with
    | .error _ => ([], [.embedQueryCall query_text])
    | .ok query_vector =>
        match search query_vector limit with
        | .error _ => ([], [.embedQueryCall query_text, .searchCall limit])
        | .ok results => (results, [.embedQueryCall query_text, .searchCall limit])

/-! ## Hybrid retrieval (`src/hybrid_search.py`) -/

/-- Model of `_generate_graph_query` (`src/hybrid_search.py` lines 8-57):
prompt the completion service, then `response.content.strip()` with the
code-fence markers `"```cypher"` and `"```"` removed; an exception yields
the empty string. -/
def generate_graph_query (prompt : String → String)
    (invoke : String → LLMResult) (user_query : String) : String :=
  match invoke (prompt user_query) with
  | .ok response => ((pyStripStr response.content).replace "```cypher" "").replace "```" ""
  | .failure _ => ""

/-- Model of `query_graph` (`src/knowledge_graph.py` lines 97-114): run a
read query and collect the rows; any exception degrades to the empty list.
Result rows are an arbitrary type `R` — callers only serialize them. -/
def query_graph (execute : String → Except String (List R))
    (cypher_query : String) : List R :=
  match execute cypher_query with
  | .ok records => records
  | .error _ => []

/-- The exact f-string that `hybrid_retrieval` returns, with the two
retrieval contexts spliced into its delimited sections. -/
def combined_context_template (semantic_context graph_context : String) : String :=
  "\n    CONTEXT FROM SEMANTIC SEARCH:\n    ---\n    " ++ semantic_context ++
    "\n    ---\n    \n    CONTEXT FROM KNOWLEDGE GRAPH:\n    ---\n    " ++
    graph_context ++ "\n    ---\n    "

/-- Model of `hybrid_retrieval` (`src/hybrid_search.py` lines 60-116).
External collaborators: `embed_query`/`search` (vector path, via
`semantic_search` with `limit=3`), `gq_prompt`/`invoke` (query translation)
and `execute` (graph read, via `query_graph`); `dumps` stands for
`json.dumps` on a result row.  The graph path contributes the empty string
when translation yields an empty query, when execution fails, or when the
query returns no rows. -/
def hybrid_retrieval (embed_query : String → Except String V)
    (search : V → Nat → Except String (List Hit)) (gq_prompt : String → String)
    (invoke : String → LLMResult) (execute : String → Except String (List R))
    (dumps : R → String) (user_query : String) : String :=
  let semantic_results := (semantic_search embed_query search user_query 3).1
  let semantic_context := String.intercalate "\n" (semantic_results.map Hit.text)
  let cypher_query := generate_graph_query gq_prompt invoke user_query
  let graph_context :=
    if cypher_query ≠ "" then
      let graph_results := query_graph execute cypher_query
      if !graph_results.isEmpty then
        String.intercalate "\n" (graph_results.map dumps)
      else ""
    else ""
  combined_context_template semantic_context graph_context

/-! ## Text chunker (`src/utils.py` `chunk_text`)

`chunk_text` delegates to `RecursiveCharacterTextSplitter(chunk_size,
chunk_overlap, length_function=len)` from `langchain_text_splitters` and is
only ever called at this configuration, i.e. with the splitter's defaults:
separators `["\n\n", "\n", " ", ""]`, `keep_separator=True` (each separator
occurrence stays glued to the front of the following piece, and pieces are
re-joined with the empty string), `strip_whitespace=True`,
`is_separator_regex=False`.  The library's `_split_text` recursion over the
separator list is unrolled below into one function per suffix of the
default separator list; texts are `List Char` (Python `len` = character
count).  The library constructor rejects `chunk_overlap > chunk_size`; the
model leaves both parameters free, which only widens the theorems' scope.
-/

/-- Scanner for `splitOnList`: walk the text, emitting the accumulated
piece (held reversed in `cur`) at each leftmost occurrence of the
separator `c0 :: sep` and skipping past it.  The recursion consumes at
least one character of `text` per step, so `fuel = text.length` always
suffices; the fuel argument only exists to keep the definition structural
(and hence kernel-evaluable). -/
def splitOnListAux (c0 : Char) (sep : List Char) :
    Nat → List Char → List Char → List (List Char)
  | _, [], cur => [cur.reverse]
  | 0, text, cur => [cur.reverse ++ text]
  | fuel + 1, x :: rest, cur =>
      if (c0 :: sep).isPrefixOf (x :: rest) then
        cur.reverse :: splitOnListAux c0 sep fuel (rest.drop sep.length) []
      else
        splitOnListAux c0 sep fuel rest (x :: cur)

/-- Python `re.split(re.escape(sep), text)` for a non-empty literal
separator: split at each leftmost non-overlapping occurrence.  (An empty
separator never reaches this function; the library special-cases it.) -/
def splitOnList (sep text : List Char) : List (List Char) :=
  match sep with
  | [] => [text]
  | c0 :: rest => splitOnListAux c0 rest text.length text []

/-- Python `re.search(re.escape(sep), text) is not None`: whether the
literal separator occurs in the text. -/
def containsSeq (sep : List Char) : List Char → Bool
  | [] => sep.isEmpty
  | x :: rest => sep.isPrefixOf (x :: rest) || containsSeq sep rest

/-- The library's `_split_text_with_regex` with `keep_separator=True`: split
on the separator, glue each separator occurrence onto the front of the
piece that follows it, and drop empty pieces. -/
def split_text_with_sep (sep text : List Char) : List (List Char) :=
  match splitOnList sep text with
  | [] => []
  | p :: ps => (p :: ps.map (fun q => sep ++ q)).filter (fun s => !s.isEmpty)

/-- Python `separator.join(docs)`. -/
def joinWithSep (sep : List α) : List (List α) → List α
  | [] => []
  | [d] => d
  | d :: rest => d ++ sep ++ joinWithSep sep rest

/-- The library's `_join_docs`: join the accumulated pieces with the
separator, strip surrounding whitespace (`strip_whitespace=True`), and
drop the result when it is empty. -/
def join_docs (separator : List Char) (docs : List (List Char)) : Option (List Char) :=
  if (pyStrip (joinWithSep separator docs)).isEmpty then none
  else some (pyStrip (joinWithSep separator docs))

/-- The `while` loop inside `_merge_splits` that pops pieces off the front
of `current_doc` until the running window fits under the overlap/size
bounds.  `lenD` is the length of the piece about to be appended.  (On the
empty list with the loop condition still true, the Python code would raise
`IndexError`; that state is unreachable because `total` always equals the
summed length of `current_doc` at this point.) -/
def popLoop (chunk_size chunk_overlap sepLen lenD : Nat) :
    List (List Char) → Nat → List (List Char) × Nat
  | [], total => ([], total)
  | c :: rest, total =>
      if total > chunk_overlap || (total + lenD + sepLen > chunk_size && total > 0) then
        popLoop chunk_size chunk_overlap sepLen lenD rest
          (total - (c.length + if rest.isEmpty then 0 else sepLen))
      else (c :: rest, total)

/-- The `for d in splits` loop of the library's `_merge_splits`: grow a
window of pieces, flushing it (joined and stripped) to `docs` whenever the
next piece would overflow `chunk_size`, keeping up to `chunk_overlap`
characters of trailing window as overlap. -/
def merge_splits_go (chunk_size chunk_overlap : Nat) (separator : List Char)
    (docs current_doc : List (List Char)) (total : Nat) :
    List (List Char) → List (List Char)
  | [] =>
      (match join_docs separator current_doc with
       | none => docs
       | some d => docs ++ [d])
  | d :: rest =>
      if total + d.length + (if current_doc.isEmpty then 0 else separator.length)
            > chunk_size
          && !current_doc.isEmpty then
        merge_splits_go chunk_size chunk_overlap separator
          (match join_docs separator current_doc with
           | none => docs
           | some dd => docs ++ [dd])
          ((popLoop chunk_size chunk_overlap separator.length d.length
              current_doc total).1 ++ [d])
          ((popLoop chunk_size chunk_overlap separator.length d.length
              current_doc total).2 + d.length
            + (if (popLoop chunk_size chunk_overlap separator.length d.length
                    current_doc total).1.isEmpty then 0 else separator.length))
          rest
      else
        merge_splits_go chunk_size chunk_overlap separator docs (current_doc ++ [d])
          (total + d.length + (if current_doc.isEmpty then 0 else separator.length))
          rest

/-- The library's `_merge_splits`. -/
def merge_splits (chunk_size chunk_overlap : Nat) (separator : List Char)
    (splits : List (List Char)) : List (List Char) :=
  merge_splits_go chunk_size chunk_overlap separator [] [] 0 splits

/-- The `for s in splits` loop of the library's `_split_text`: pieces
shorter than `chunk_size` accumulate in `good` and are merged with
`merge_splits` (joined with `""`, since `keep_separator=True`); an
oversized piece flushes the accumulator and is either recursed into with
the remaining separators (`recurse = some f`) or appended as-is when no
separators remain (`recurse = none`). -/
def split_text_go (chunk_size chunk_overlap : Nat)
    (recurse : Option (List Char → List (List Char)))
    (final good : List (List Char)) : List (List Char) → List (List Char)
  | [] =>
      if good.isEmpty then final
      else final ++ merge_splits chunk_size chunk_overlap [] good
  | s :: rest =>
      if s.length < chunk_size then
        split_text_go chunk_size chunk_overlap recurse final (good ++ [s]) rest
      else
        match recurse with
        | none =>
            split_text_go chunk_size chunk_overlap recurse
              ((if good.isEmpty then final
                else final ++ merge_splits chunk_size chunk_overlap [] good) ++ [s])
              [] rest
        | some f =>
            split_text_go chunk_size chunk_overlap recurse
              ((if good.isEmpty then final
                else final ++ merge_splits chunk_size chunk_overlap [] good) ++ f s)
              [] rest

/-- `_split_text` at separator list `[""]`: split into single characters,
no further recursion. -/
def split_level_char (chunk_size chunk_overlap : Nat) (text : List Char) :
    List (List Char) :=
  split_text_go chunk_size chunk_overlap none [] [] (text.map (fun c => [c]))

/-- `_split_text` at separator list `[" ", ""]`. -/
def split_level_space (chunk_size chunk_overlap : Nat) (text : List Char) :
    List (List Char) :=
  if containsSeq [' '] text then
    split_text_go chunk_size chunk_overlap (some (split_level_char chunk_size chunk_overlap))
      [] [] (split_text_with_sep [' '] text)
  else split_level_char chunk_size chunk_overlap text

/-- `_split_text` at separator list `["\n", " ", ""]`. -/
def split_level_newline (chunk_size chunk_overlap : Nat) (text : List Char) :
    List (List Char) :=
  if containsSeq ['\n'] text then
    split_text_go chunk_size chunk_overlap (some (split_level_space chunk_size chunk_overlap))
      [] [] (split_text_with_sep ['\n'] text)
  else split_level_space chunk_size chunk_overlap text

/-- `_split_text` at the full default separator list `["\n\n", "\n", " ", ""]`. -/
def split_level_para (chunk_size chunk_overlap : Nat) (text : List Char) :
    List (List Char) :=
  if containsSeq ['\n', '\n'] text then
    split_text_go chunk_size chunk_overlap (some (split_level_newline chunk_size chunk_overlap))
      [] [] (split_text_with_sep ['\n', '\n'] text)
  else split_level_newline chunk_size chunk_overlap text

/-- Model of `chunk_text` (`src/utils.py` lines 31-49): run the recursive
splitter at the repository's configuration and defaults. -/
def chunk_text (text : String) (chunk_size : Nat := 1000) (chunk_overlap : Nat := 100) :
    List String :=
  (split_level_para chunk_size chunk_overlap text.toList).map String.mk

/-! ## Ingestion orchestrator (`src/ingestion.py`) -/

/-- Terminal state of `ingest_file` for one file: skipped at the extension
dispatch, skipped after empty/whitespace-only extraction, or the full
pipeline ran. -/
inductive IngestStatus where
  | skippedUnsupportedType
  | skippedNoText
  | completed
deriving DecidableEq

/-- The mutable state `ingest_file` can touch: the Qdrant collection and
the Neo4j graph. -/
structure SysState (V : Type) where
  vstore : List (Nat × V × VPayload)
  graph : Graph

/-- The supported extension set of `ingest_file`'s dispatch chain. -/
def supported_extensions : List String :=
  [".pdf", ".txt", ".jpg", ".jpeg", ".png", ".mp3", ".wav"]

/-- Steps 3-6 of `ingest_file`, reached once text extraction produced a
non-empty, non-whitespace `raw_text`: chunk, upsert the chunks with their
`{source_file, chunk_index}` metadata, then for each chunk run entity
extraction and a graph update.  A failure inside one chunk's graph update
is absorbed by `update_graph_from_json`'s own handlers, so the loop always
continues. -/
def ingest_body (filename : String)
    (embed_documents : List String → Except String (List V))
    (ex_prompt : String → String) (invoke : String → LLMResult)
    (parse : String → Option Json) (raw_text : String) (st : SysState V) :
    SysState V × IngestStatus :=
  if pyEmptyOrSpace raw_text then (st, .skippedNoText)
  else
    let text_chunks := chunk_text raw_text
    let metadatas := (List.range text_chunks.length).map
      (fun i => { source_file := filename, chunk_index := i })
    let vstore' := upsert_chunks embed_documents st.vstore text_chunks metadatas
    let graph' := text_chunks.foldl
      (fun g chunk =>
        (update_graph_from_data parse g
          (extract_entities_and_relationships ex_prompt invoke chunk)).1)
      st.graph
    ({ vstore := vstore', graph := graph' }, .completed)

/-- Model of `ingest_file` (`src/ingestion.py` lines 44-107).  `ext` is the
lower-cased extension `os.path.splitext(filename)[1].lower()`; the four
`*_text` parameters are the texts the corresponding extractor
(`_extract_text_from_pdf`, `_extract_text_from_txt`, OCR, transcription)
would return for this file — each extractor already converts its own
failures to `""`.  Unsupported extensions return before any extraction or
store access. -/
def ingest_file (filename ext : String)
    (pdf_text txt_text image_text audio_text : String)
    (embed_documents : List String → Except String (List V))
    (ex_prompt : String → String) (invoke : String → LLMResult)
    (parse : String → Option Json) (st : SysState V) :
    SysState V × IngestStatus :=
  if ext = ".pdf" then
    ingest_body filename embed_documents ex_prompt invoke parse pdf_text st
  else if ext = ".txt" then
    ingest_body filename embed_documents ex_prompt invoke parse txt_text st
  else if ext = ".jpg" || ext = ".jpeg" || ext = ".png" then
    ingest_body filename embed_documents ex_prompt invoke parse image_text st
  else if ext = ".mp3" || ext = ".wav" then
    ingest_body filename embed_documents ex_prompt invoke parse audio_text st
  else
    (st, .skippedUnsupportedType)

/-! ## Derived definitions used by the claim statements -/

/-- Whether a JSON value is a list. -/
def Json.isArr : Json → Bool
  | .arr _ => true
  | _ => false

/-- Whether a JSON value is an object (a Python `dict`, the only values on
which the loop's `item.get` calls succeed). -/
def Json.isObj : Json → Bool
  | .obj _ => true
  | _ => false

/-- Whether a JSON value is `null` or a string. -/
def Json.strOrNull : Json → Bool
  | .null => true
  | .str _ => true
  | _ => false

/-- A well-formed triple object in the sense of the spec's data model
(§3 "Triple"): a JSON object whose `source` / `relationship` / `target`
fields, where present, are strings (a missing field reads as `null`). -/
def triple_fields_ok : Json → Bool
  | .obj fields =>
      (fields.get "source").strOrNull && (fields.get "relationship").strOrNull
        && (fields.get "target").strOrNull
  | _ => false

/-- The spec's description of one batch element's effect (§4.3
`apply_extraction`): a triple with all three fields non-empty is merged
(one source node, one target node, one normalized edge); a triple with any
field empty or missing contributes nothing. -/
def merge_valid_triple (g : Graph) (item : Json) : Graph :=
  match item with
  | .obj fields =>
      match fields.get "source", fields.get "relationship", fields.get "target" with
      | .str s, .str r, .str t =>
          if s ≠ "" ∧ r ≠ "" ∧ t ≠ "" then
            { nodes := insert (Json.str t) (insert (Json.str s) g.nodes),
              edges := insert (Json.str s, sanitize_rel_type r, Json.str t) g.edges }
          else g
      | _, _, _ => g
  | _ => g

/-- The text that `ingest_file`'s extension dispatch selects for
extraction: the same `elif` chain as the source, yielding the pdf / txt /
image / audio extractor's output respectively. -/
def dispatched_text (ext pdf_text txt_text image_text audio_text : String) : String :=
  if ext = ".pdf" then pdf_text
  else if ext = ".txt" then txt_text
  else if ext = ".jpg" || ext = ".jpeg" || ext = ".png" then image_text
  else if ext = ".mp3" || ext = ".wav" then audio_text
  else ""

/-- The concrete input of the C2 counterexample: a well-formed JSON list
whose first element is a valid triple and whose second element is the
number 42 (not an object). -/
def c2_bad_input : String :=
  "[\x7b\"source\": \"A\", \"relationship\": \"R\", \"target\": \"B\"\x7d, 42]"

/-- The value `json.loads(c2_bad_input)` produces. -/
def c2_bad_value : Json :=
  .arr (JsonList.ofList
    [.obj (JsonFields.ofList
      [("source", .str "A"), ("relationship", .str "R"), ("target", .str "B")]),
     .num 42])

/-- Model of `json.loads` on the single input of the C2 counterexample:
`c2_bad_input` is valid JSON and decodes to `c2_bad_value`. -/
def json_loads_c2 (s : String) : Option Json :=
  if s = c2_bad_input then some c2_bad_value else none

/-! ## Helper lemmas -/

/-- On a well-formed triple object the loop body never raises: it merges
the triple when all three fields are non-empty and skips it otherwise,
exactly as `merge_valid_triple` describes. -/
theorem process_item_wellformed (g : Graph) (item : Json)
    (h : triple_fields_ok item = true) :
    process_item g item = some (merge_valid_triple g item) := by
  cases item
  case null => exact absurd h (by simp [triple_fields_ok])
  case bool => exact absurd h (by simp [triple_fields_ok])
  case num => exact absurd h (by simp [triple_fields_ok])
  case str => exact absurd h (by simp [triple_fields_ok])
  case arr => exact absurd h (by simp [triple_fields_ok])
  case obj fields =>
  rw [show triple_fields_ok (Json.obj fields)
        = ((fields.get "source").strOrNull && (fields.get "relationship").strOrNull
            && (fields.get "target").strOrNull) from rfl,
      Bool.and_eq_true, Bool.and_eq_true] at h
  obtain ⟨⟨hs, hr⟩, ht⟩ := h
  simp only [process_item, merge_valid_triple]
  generalize fields.get "source" = a at hs ⊢
  generalize fields.get "relationship" = b at hr ⊢
  generalize fields.get "target" = c at ht ⊢
  cases a <;> cases b <;> cases c <;>
    simp_all [Json.strOrNull, Json.truthy, add_relationship_tx]
  all_goals (split_ifs <;> simp_all)

/-- The loop body raises `AttributeError` on any non-object element. -/
theorem process_item_not_obj (g : Graph) (item : Json) (h : item.isObj = false) :
    process_item g item = none := by
  cases item <;> simp_all [process_item, Json.isObj]

/-- A batch of well-formed triple objects runs to completion, applying
exactly the valid triples in order. -/
theorem process_items_wellformed (g : Graph) (items : List Json)
    (h : ∀ j ∈ items, triple_fields_ok j = true) :
    process_items g (JsonList.ofList items)
      = (items.foldl merge_valid_triple g, .completed) := by
  induction items generalizing g with
  | nil => simp [JsonList.ofList, process_items]
  | cons j rest ih =>
      simp only [JsonList.ofList, process_items, List.foldl]
      rw [process_item_wellformed g j (h j (by simp))]
      exact ih _ (fun x hx => h x (by simp [hx]))

/-! ## Claim C10 -/

/-- Claim C10: for every result limit (and any backend), calling
`semantic_search` with an empty query string returns an empty list
immediately, issuing no embedding call and no search request. -/
theorem c10_empty_query_short_circuits {V : Type}
    (embed_query : String → Except String V)
    (search : V → Nat → Except String (List Hit)) (limit : Nat) :
    semantic_search embed_query search "" limit = ([], []) := by
  simp [semantic_search]

/-! ## Claim C3 -/

/-- Claim C3 (code bug): on a failed service call
`extract_entities_and_relationships` indeed returns the string `"[]"`, but
on a successful call it returns the raw response message object rather
than a string encoding of the triples — contradicting its own docstring
("Returns: str") and the downstream parser, which needs a string. -/
theorem c3_extractor_returns_message_object :
    extract_entities_and_relationships id
        (fun _ => .ok ⟨"[]"⟩) "John Smith works for Acme Corp"
      = .message ⟨"[]"⟩
    ∧ extract_entities_and_relationships id
        (fun _ => .failure "service unavailable") "John Smith works for Acme Corp"
      = .text "[]"
    ∧ (∀ m : AIMessage, (ExtractOutput.message m).isText = false) := by
  refine ⟨rfl, rfl, fun m => rfl⟩

/-! ## Claim C5 -/

/-- Claim C5: the stored edge type is the relationship string uppercased
with spaces replaced by underscores; in particular "works for" is stored
as `WORKS_FOR`. -/
theorem c5_relationship_normalized (g g' : Graph) (s r t : String)
    (h : add_relationship_tx g (.str s) (.str r) (.str t) = some g') :
    (Json.str s, sanitize_rel_type r, Json.str t) ∈ g'.edges
    ∧ sanitize_rel_type "works for" = "WORKS_FOR" := by
  refine ⟨?_, by decide⟩
  simp only [add_relationship_tx, Option.some.injEq] at h
  subst h
  exact Finset.mem_insert_self _ _

/-- Witness for C5 at a concrete merge. -/
theorem c5_relationship_normalized_witness :
    (Json.str "Alice", sanitize_rel_type "works for", Json.str "Acme") ∈
      (Graph.mk (insert (Json.str "Acme") (insert (Json.str "Alice") ∅))
        (insert (Json.str "Alice", sanitize_rel_type "works for", Json.str "Acme") ∅)).edges
    ∧ sanitize_rel_type "works for" = "WORKS_FOR" :=
  c5_relationship_normalized Graph.empty _ "Alice" "works for" "Acme" rfl

/-! ## Claim C4 -/

/-- Claim C4: merging a triple is idempotent — re-merging the same triple
leaves the graph unchanged, and the merged graph holds exactly one node
for the source name, one for the target name, and one edge of the
normalized type between them. -/
theorem c4_merge_triple_idempotent (g g1 : Graph) (s r t : String)
    (h : add_relationship_tx g (.str s) (.str r) (.str t) = some g1) :
    add_relationship_tx g1 (.str s) (.str r) (.str t) = some g1
    ∧ (g1.nodes.filter (fun n => n = Json.str s)).card = 1
    ∧ (g1.nodes.filter (fun n => n = Json.str t)).card = 1
    ∧ (g1.edges.filter
        (fun e => e = (Json.str s, sanitize_rel_type r, Json.str t))).card = 1 := by
  simp only [add_relationship_tx, Option.some.injEq] at h
  subst h
  refine ⟨?_, ?_, ?_, ?_⟩
  · simp only [add_relationship_tx, Option.some.injEq]
    congr 1
    · apply Finset.ext
      intro x
      simp only [Finset.mem_insert]
      tauto
    · exact Finset.insert_idem _ _
  · rw [Finset.filter_eq', if_pos (by simp)]
    exact Finset.card_singleton _
  · rw [Finset.filter_eq', if_pos (by simp)]
    exact Finset.card_singleton _
  · rw [Finset.filter_eq', if_pos (by simp)]
    exact Finset.card_singleton _

/-- Witness for C4 at a concrete merge into the empty graph. -/
theorem c4_merge_triple_idempotent_witness :
    add_relationship_tx
        (Graph.mk (insert (Json.str "Acme Corp") (insert (Json.str "John Smith") ∅))
          (insert (Json.str "John Smith", sanitize_rel_type "works for", Json.str "Acme Corp") ∅))
        (.str "John Smith") (.str "works for") (.str "Acme Corp")
      = some (Graph.mk (insert (Json.str "Acme Corp") (insert (Json.str "John Smith") ∅))
          (insert (Json.str "John Smith", sanitize_rel_type "works for", Json.str "Acme Corp") ∅))
    ∧ ((Graph.mk (insert (Json.str "Acme Corp") (insert (Json.str "John Smith") ∅))
          (insert (Json.str "John Smith", sanitize_rel_type "works for", Json.str "Acme Corp") ∅)).nodes.filter
        (fun n => n = Json.str "John Smith")).card = 1 := by
  have h := c4_merge_triple_idempotent Graph.empty _ "John Smith" "works for" "Acme Corp" rfl
  exact ⟨h.1, h.2.1⟩

/-! ## Claim C6 -/

/-- Claim C6: a well-formed list of triple objects never raises: every
triple with an empty or missing field is skipped and contributes nothing,
while the remaining valid triples are merged in order (the effect of
`merge_valid_triple`). -/
theorem c6_invalid_triples_skipped (g : Graph) (items : List Json)
    (h : ∀ j ∈ items, triple_fields_ok j = true) :
    process_items g (JsonList.ofList items)
      = (items.foldl merge_valid_triple g, .completed) :=
  process_items_wellformed g items h

/-- Witness for C6: the spec's concrete input
`[{"source": "X", "relationship": "", "target": "Y"}]` applies zero edges
and zero nodes, and reports no error. -/
theorem c6_invalid_triples_skipped_witness :
    process_items Graph.empty
        (JsonList.ofList
          [Json.obj (JsonFields.ofList
            [("source", Json.str "X"), ("relationship", Json.str ""),
             ("target", Json.str "Y")])])
      = (Graph.empty, .completed) := by
  have h := c6_invalid_triples_skipped Graph.empty
    [Json.obj (JsonFields.ofList
      [("source", Json.str "X"), ("relationship", Json.str ""),
       ("target", Json.str "Y")])] (by decide)
  exact h.trans (by decide)

/-! ## Claim C2 -/

/-- Claim C2 (amended): input that is not valid JSON applies zero merges
and reports a decode error, and valid JSON that is not a list applies zero
merges and reports the not-a-list warning; but a well-formed JSON list
with a non-object element does not abort with zero merges — the elements
are processed in order, and the merges of the valid triples preceding the
first bad element remain applied when the error is reported. -/
theorem c2_malformed_input_aborts (parse : String → Option Json) (g : Graph)
    (s : String) :
    (parse s = none → update_graph_from_json parse g s = (g, .parseError))
    ∧ (∀ v, parse s = some v → v.isArr = false →
        update_graph_from_json parse g s = (g, .notAList))
    ∧ (∀ (pre : List Json) (bad : Json) (rest : List Json),
        (∀ j ∈ pre, triple_fields_ok j = true) → bad.isObj = false →
        process_items g (JsonList.ofList (pre ++ bad :: rest))
          = (pre.foldl merge_valid_triple g, .runtimeError)) := by
  refine ⟨?_, ?_, ?_⟩
  · intro h
    simp [update_graph_from_json, h]
  · intro v hv hva
    cases v <;> simp_all [update_graph_from_json, Json.isArr]
  · intro pre bad rest hpre hbad
    induction pre generalizing g with
    | nil =>
        simp only [List.nil_append, JsonList.ofList, process_items, List.foldl]
        rw [process_item_not_obj g bad hbad]
    | cons j pre' ih =>
        simp only [List.cons_append, JsonList.ofList, process_items, List.foldl]
        rw [process_item_wellformed g j (hpre j (by simp))]
        exact ih _ (fun x hx => hpre x (by simp [hx]))

/-- Witness for C2 applying each part of the amended statement at a
concrete input. -/
theorem c2_malformed_input_aborts_witness :
    update_graph_from_json (fun _ => none) Graph.empty "not json"
      = (Graph.empty, .parseError)
    ∧ update_graph_from_json (fun _ => some (Json.num 7)) Graph.empty "7"
      = (Graph.empty, .notAList)
    ∧ process_items Graph.empty
        (JsonList.ofList
          ([Json.obj (JsonFields.ofList
              [("source", Json.str "A"), ("relationship", Json.str "R"),
               ("target", Json.str "B")])] ++ Json.num 42 :: []))
      = ([Json.obj (JsonFields.ofList
            [("source", Json.str "A"), ("relationship", Json.str "R"),
             ("target", Json.str "B")])].foldl merge_valid_triple Graph.empty,
         .runtimeError) :=
  ⟨(c2_malformed_input_aborts (fun _ => none) Graph.empty "not json").1 rfl,
   (c2_malformed_input_aborts (fun _ => some (Json.num 7)) Graph.empty "7").2.1
     (Json.num 7) rfl rfl,
   (c2_malformed_input_aborts (fun _ => none) Graph.empty "unused").2.2
     _ _ _ (by decide) rfl⟩

/-- Counterexample for C2 as originally stated: the input
`[{"source": "A", "relationship": "R", "target": "B"}, 42]` is not a
well-formed list of triples (its second element is not a triple object),
yet the call does not apply zero merges — the first triple's edge is in
the graph when the error is reported. -/
theorem c2_partial_application_counterexample :
    (update_graph_from_json json_loads_c2 Graph.empty c2_bad_input).2
      = UpdateOutcome.runtimeError
    ∧ (update_graph_from_json json_loads_c2 Graph.empty c2_bad_input).1
      ≠ Graph.empty
    ∧ (Json.str "A", "R", Json.str "B") ∈
        (update_graph_from_json json_loads_c2 Graph.empty c2_bad_input).1.edges := by
  refine ⟨by decide, by decide, by decide⟩

/-! ## Claim C8 -/

/-- Claim C8: `ingest_file` skips — without error and without touching the
vector store or the graph store — every file whose extension is outside
the supported set, and every supported file whose extracted text is empty
or whitespace-only. -/
theorem c8_skip_paths_leave_stores_unchanged {V : Type}
    (filename ext pdf_text txt_text image_text audio_text : String)
    (embed_documents : List String → Except String (List V))
    (ex_prompt : String → String) (invoke : String → LLMResult)
    (parse : String → Option Json) (st : SysState V) :
    (ext ∉ supported_extensions →
      ingest_file filename ext pdf_text txt_text image_text audio_text
          embed_documents ex_prompt invoke parse st
        = (st, .skippedUnsupportedType))
    ∧ (ext ∈ supported_extensions →
        pyEmptyOrSpace (dispatched_text ext pdf_text txt_text image_text audio_text) = true →
        ingest_file filename ext pdf_text txt_text image_text audio_text
            embed_documents ex_prompt invoke parse st
          = (st, .skippedNoText)) := by
  constructor
  · intro h
    simp only [supported_extensions, List.mem_cons, List.not_mem_nil, or_false,
      not_or] at h
    obtain ⟨h1, h2, h3, h4, h5, h6, h7⟩ := h
    simp [ingest_file, h1, h2, h3, h4, h5, h6, h7]
  · intro hmem hsp
    simp only [supported_extensions, List.mem_cons, List.not_mem_nil, or_false] at hmem
    unfold dispatched_text at hsp
    rcases hmem with rfl | rfl | rfl | rfl | rfl | rfl | rfl <;>
      simp_all [ingest_file, ingest_body]

/-- Witness for C8: a `.docx` file is skipped as unsupported, and a `.txt`
file whose content is whitespace is skipped after extraction; the stores
are unchanged in both cases. -/
theorem c8_skip_paths_witness :
    ingest_file (V := Unit) "report.docx" ".docx" "" "" "" ""
        (fun _ => .error "down") id (fun _ => .failure "down") (fun _ => none)
        ⟨[], Graph.empty⟩
      = (⟨[], Graph.empty⟩, .skippedUnsupportedType)
    ∧ ingest_file (V := Unit) "notes.txt" ".txt" "" " \n " "" ""
        (fun _ => .error "down") id (fun _ => .failure "down") (fun _ => none)
        ⟨[], Graph.empty⟩
      = (⟨[], Graph.empty⟩, .skippedNoText) :=
  ⟨(c8_skip_paths_leave_stores_unchanged "report.docx" ".docx" "" "" "" ""
      (fun _ => .error "down") id (fun _ => .failure "down") (fun _ => none)
      ⟨[], Graph.empty⟩).1 (by decide),
   (c8_skip_paths_leave_stores_unchanged "notes.txt" ".txt" "" " \n " "" ""
      (fun _ => .error "down") id (fun _ => .failure "down") (fun _ => none)
      ⟨[], Graph.empty⟩).2 (by decide) (by decide)⟩

/-! ## Claim C7 -/

/-- Claim C7: when query translation yields an empty string or graph-query
execution fails, `hybrid_retrieval` still returns the fused context with
both section headers present, an empty knowledge-graph section, and the
semantic-search section carrying the vector results; no error reaches the
caller. -/
theorem c7_graph_path_soft_fails {V R : Type}
    (embed_query : String → Except String V)
    (search : V → Nat → Except String (List Hit))
    (gq_prompt : String → String) (invoke : String → LLMResult)
    (execute : String → Except String (List R)) (dumps : R → String)
    (user_query : String)
    (h : generate_graph_query gq_prompt invoke user_query = ""
         ∨ ∃ e, execute (generate_graph_query gq_prompt invoke user_query)
                  = .error e) :
    hybrid_retrieval embed_query search gq_prompt invoke execute dumps user_query
      = combined_context_template
          (String.intercalate "\n"
            ((semantic_search embed_query search user_query 3).1.map Hit.text)) ""
    ∧ (∃ a b, hybrid_retrieval embed_query search gq_prompt invoke execute dumps
          user_query = a ++ "CONTEXT FROM SEMANTIC SEARCH:" ++ b)
    ∧ (∃ a b, hybrid_retrieval embed_query search gq_prompt invoke execute dumps
          user_query = a ++ "CONTEXT FROM KNOWLEDGE GRAPH:" ++ b) := by
  have hmain : hybrid_retrieval embed_query search gq_prompt invoke execute dumps
      user_query
      = combined_context_template
          (String.intercalate "\n"
            ((semantic_search embed_query search user_query 3).1.map Hit.text)) "" := by
    unfold hybrid_retrieval
    rcases h with h | ⟨e, h⟩
    · simp [h]
    · simp [query_graph, h]
  refine ⟨hmain, ?_, ?_⟩
  · refine ⟨"\n    ", "\n    ---\n    "
      ++ (String.intercalate "\n"
            ((semantic_search embed_query search user_query 3).1.map Hit.text))
      ++ "\n    ---\n    \n    CONTEXT FROM KNOWLEDGE GRAPH:\n    ---\n    "
      ++ "" ++ "\n    ---\n    ", ?_⟩
    rw [hmain]
    unfold combined_context_template
    simp only [← String.append_assoc]
    rfl
  · refine ⟨"\n    CONTEXT FROM SEMANTIC SEARCH:\n    ---\n    "
      ++ (String.intercalate "\n"
            ((semantic_search embed_query search user_query 3).1.map Hit.text))
      ++ "\n    ---\n    \n    ", "\n    ---\n    "
      ++ "" ++ "\n    ---\n    ", ?_⟩
    rw [hmain]
    unfold combined_context_template
    simp only [String.append_assoc]
    congr 2

/-- Witness for C7: with the completion service down (translation returns
the empty string) and the vector backend also failing, the caller still
receives the fused context with both headers and empty sections. -/
theorem c7_graph_path_soft_fails_witness :
    hybrid_retrieval (V := Unit) (R := Unit) (fun _ => .error "down")
        (fun _ _ => .error "down") id (fun _ => .failure "down")
        (fun _ => .error "down") (fun _ => "") "Who works for Acme Corp?"
      = combined_context_template
          (String.intercalate "\n"
            ((semantic_search (V := Unit) (fun _ => .error "down")
                (fun _ _ => .error "down") "Who works for Acme Corp?" 3).1.map
              Hit.text)) ""
    ∧ (∃ a b, hybrid_retrieval (V := Unit) (R := Unit) (fun _ => .error "down")
          (fun _ _ => .error "down") id (fun _ => .failure "down")
          (fun _ => .error "down") (fun _ => "") "Who works for Acme Corp?"
        = a ++ "CONTEXT FROM SEMANTIC SEARCH:" ++ b)
    ∧ (∃ a b, hybrid_retrieval (V := Unit) (R := Unit) (fun _ => .error "down")
          (fun _ _ => .error "down") id (fun _ => .failure "down")
          (fun _ => .error "down") (fun _ => "") "Who works for Acme Corp?"
        = a ++ "CONTEXT FROM KNOWLEDGE GRAPH:" ++ b) :=
  c7_graph_path_soft_fails (fun _ => .error "down") (fun _ _ => .error "down")
    id (fun _ => .failure "down") (fun _ => .error "down") (fun _ => "")
    "Who works for Acme Corp?" (Or.inl rfl)

/-! ## Claim C1: upsert lemmas -/

/-- After an upsert the written id is present in the store. -/
theorem upsertPoint_id_mem (store : List (Nat × α)) (p : Nat × α) :
    (upsertPoint store p).any (fun q => q.1 == p.1) = true := by
  unfold upsertPoint
  split
  · next hany =>
      rw [List.any_map]
      rw [List.any_eq_true] at hany ⊢
      obtain ⟨q, hq, hqe⟩ := hany
      exact ⟨q, hq, by simp_all⟩
  · simp


/-- Upserting a point a second time changes nothing. -/
theorem upsertPoint_idem (store : List (Nat × α)) (p : Nat × α) :
    upsertPoint (upsertPoint store p) p = upsertPoint store p := by
  by_cases hany : (store.any (fun q => q.1 == p.1)) = true
  · rw [upsertPoint, if_pos (upsertPoint_id_mem store p), upsertPoint, if_pos hany,
      List.map_map]
    apply List.map_congr_left
    intro q _
    by_cases hq : (q.1 == p.1) = true <;> simp [hq, Function.comp]
  · rw [upsertPoint, if_pos (upsertPoint_id_mem store p), upsertPoint, if_neg hany,
      List.map_append]
    have h1 : store.map (fun q => if q.1 == p.1 then p else q) = store := by
      conv_rhs => rw [← List.map_id store]
      apply List.map_congr_left
      intro q hq
      have hne : ¬(q.1 == p.1) = true := by
        intro hc
        exact hany (List.any_eq_true.mpr ⟨q, hq, hc⟩)
      simp [hne]
    rw [h1]
    simp

/-- Upserting a point cannot remove an id from the store. -/
theorem upsertPoint_mem_mono (s : List (Nat × α)) (q : Nat × α) (i : Nat)
    (h : (s.any (fun x => x.1 == i)) = true) :
    ((upsertPoint s q).any (fun x => x.1 == i)) = true := by
  unfold upsertPoint
  split
  · rw [List.any_map]
    rw [List.any_eq_true] at h ⊢
    obtain ⟨x, hx, hxe⟩ := h
    refine ⟨x, hx, ?_⟩
    by_cases hxq : (x.1 == q.1) = true <;> simp_all
  · rw [List.any_append]
    simp [h]

/-- Upserts of points with distinct ids commute, provided the first id is
already present (then both are in-place replacements or disjoint
appends). -/
theorem upsertPoint_comm_of_mem (s : List (Nat × α)) (p q : Nat × α)
    (hp : (s.any (fun x => x.1 == p.1)) = true) (hne : p.1 ≠ q.1) :
    upsertPoint (upsertPoint s q) p = upsertPoint (upsertPoint s p) q := by
  have hp' : ((upsertPoint s q).any (fun x => x.1 == p.1)) = true :=
    upsertPoint_mem_mono s q p.1 hp
  have ep : upsertPoint s p = s.map (fun x => if x.1 == p.1 then p else x) := by
    rw [upsertPoint, if_pos hp]
  have hq' : ((upsertPoint s p).any (fun x => x.1 == q.1))
      = (s.any (fun x => x.1 == q.1)) := by
    rw [ep, List.any_map]
    congr 1
    funext x
    by_cases hx : (x.1 == p.1) = true <;> simp_all
  have op : upsertPoint (upsertPoint s q) p
      = (upsertPoint s q).map (fun x => if x.1 == p.1 then p else x) := by
    rw [upsertPoint, if_pos hp']
  by_cases hq : (s.any (fun x => x.1 == q.1)) = true
  · have eq1 : upsertPoint s q = s.map (fun x => if x.1 == q.1 then q else x) := by
      rw [upsertPoint, if_pos hq]
    have oq : upsertPoint (upsertPoint s p) q
        = (upsertPoint s p).map (fun x => if x.1 == q.1 then q else x) := by
      rw [upsertPoint, if_pos (hq'.trans hq)]
    rw [op, oq, eq1, ep, List.map_map, List.map_map]
    apply List.map_congr_left
    intro x _
    by_cases h1 : (x.1 == q.1) = true <;> by_cases h2 : (x.1 == p.1) = true <;>
      simp_all [Function.comp]
  · have eq1 : upsertPoint s q = s ++ [q] := by
      rw [upsertPoint, if_neg hq]
    have oq : upsertPoint (upsertPoint s p) q = upsertPoint s p ++ [q] := by
      rw [upsertPoint, if_neg (by rw [hq']; exact hq)]
    rw [op, oq, eq1, ep, List.map_append]
    simp only [List.map_cons, List.map_nil]
    rw [if_neg (by simp [Ne.symm hne])]

/-- An upsert of an id that is present in the store and absent from a
batch commutes past the whole batch. -/
theorem upsertPoint_upsertPoints_comm (s : List (Nat × α)) (ps : List (Nat × α))
    (p : Nat × α) (hp : (s.any (fun x => x.1 == p.1)) = true)
    (hni : ∀ q ∈ ps, p.1 ≠ q.1) :
    upsertPoint (upsertPoints s ps) p = upsertPoints (upsertPoint s p) ps := by
  induction ps generalizing s with
  | nil => rfl
  | cons q ps' ih =>
      simp only [upsertPoints, List.foldl] at *
      rw [ih (upsertPoint s q) (upsertPoint_mem_mono s q p.1 hp)
        (fun x hx => hni x (by simp [hx]))]
      rw [upsertPoint_comm_of_mem s p q hp (hni q (by simp))]

/-- Unfolding one step of a batched upsert. -/
theorem upsertPoints_cons (s : List (Nat × α)) (p : Nat × α) (ps : List (Nat × α)) :
    upsertPoints s (p :: ps) = upsertPoints (upsertPoint s p) ps := rfl

/-- Re-applying a batch whose ids are pairwise distinct changes nothing:
every point of the second pass overwrites the identical record written by
the first pass. -/
theorem upsertPoints_idem (s : List (Nat × α)) (ps : List (Nat × α))
    (hnd : (ps.map Prod.fst).Nodup) :
    upsertPoints (upsertPoints s ps) ps = upsertPoints s ps := by
  induction ps generalizing s with
  | nil => rfl
  | cons p ps' ih =>
      obtain ⟨hpn, hnd'⟩ := List.nodup_cons.mp hnd
      have hne : ∀ q ∈ ps', p.1 ≠ q.1 := by
        intro q hq hc
        exact hpn (hc ▸ List.mem_map_of_mem Prod.fst hq)
      rw [upsertPoints_cons s p ps',
        upsertPoints_cons (upsertPoints (upsertPoint s p) ps') p ps']
      rw [upsertPoint_upsertPoints_comm (upsertPoint s p) ps' p
        (upsertPoint_id_mem s p) hne]
      rw [upsertPoint_idem]
      exact ih (upsertPoint s p) hnd'

/-- The point ids assigned by `upsert_chunks` (`enumerate` indices) are
pairwise distinct. -/
theorem enum_map_ids_nodup (l : List β) (f : Nat × β → Nat × γ)
    (hf : ∀ x, (f x).1 = x.1) : ((l.enum.map f).map Prod.fst).Nodup := by
  rw [List.map_map]
  have hfe : (Prod.fst ∘ f) = fun x : Nat × β => x.1 := funext (fun x => hf x)
  rw [hfe]
  show (List.map Prod.fst l.enum).Nodup
  rw [List.enum_map_fst]
  exact List.nodup_range _

/-! ## Claim C1 -/

/-- Claim C1 (amended): re-running `upsert_chunks` with the same chunks
and metadata is idempotent — point ids restart at 0 on every call, so the
second run's records overwrite the first's one-for-one (last-write-wins)
instead of adding a second set of records. -/
theorem c1_reingestion_overwrites {V : Type}
    (embed_documents : List String → Except String (List V))
    (store : List (Nat × V × VPayload)) (chunks : List String)
    (metadatas : List ChunkMeta) :
    upsert_chunks embed_documents
        (upsert_chunks embed_documents store chunks metadatas) chunks metadatas
      = upsert_chunks embed_documents store chunks metadatas := by
  by_cases hc : chunks.isEmpty = true
  · simp [upsert_chunks, hc]
  · cases hv : embed_documents chunks with
    | error e => simp [upsert_chunks, hc, hv]
    | ok vectors =>
        simp only [upsert_chunks, hc, hv, if_false]
        exact upsertPoints_idem _ _ (enum_map_ids_nodup _ _ (fun x => rfl))

/-- Counterexample for C1 as stated: ingesting the same single-chunk file
twice leaves one chunk record in the store, not two sets of records. -/
theorem c1_reingestion_counterexample :
    (upsert_chunks (V := Nat) (fun cs => .ok (cs.map (fun _ => 0)))
        (upsert_chunks (V := Nat) (fun cs => .ok (cs.map (fun _ => 0))) []
          ["John Smith works for Acme Corp"]
          [{ source_file := "a.txt", chunk_index := 0 }])
        ["John Smith works for Acme Corp"]
        [{ source_file := "a.txt", chunk_index := 0 }]).length = 1
    ∧ ¬((upsert_chunks (V := Nat) (fun cs => .ok (cs.map (fun _ => 0)))
        (upsert_chunks (V := Nat) (fun cs => .ok (cs.map (fun _ => 0))) []
          ["John Smith works for Acme Corp"]
          [{ source_file := "a.txt", chunk_index := 0 }])
        ["John Smith works for Acme Corp"]
        [{ source_file := "a.txt", chunk_index := 0 }]).length = 2) := by
  refine ⟨by decide, by decide⟩

/-! ## Claim C9: chunk-size lemmas -/

/-- Dropping a prefix cannot lengthen a list. -/
theorem length_dropWhile_le (p : α → Bool) (l : List α) :
    (l.dropWhile p).length ≤ l.length := by
  induction l with
  | nil => simp
  | cons x xs ih =>
      simp only [List.dropWhile]
      split
      · exact Nat.le_succ_of_le ih
      · simp

/-- Stripping whitespace cannot lengthen a string. -/
theorem length_pyStrip_le (l : List Char) : (pyStrip l).length ≤ l.length := by
  unfold pyStrip
  rw [List.length_reverse]
  have h1 := length_dropWhile_le pyIsSpace l
  have h2 := length_dropWhile_le pyIsSpace (l.dropWhile pyIsSpace).reverse
  rw [List.length_reverse] at h2
  omega

/-- Joining with the empty separator concatenates, so its length is the
summed length of the pieces. -/
theorem length_joinWithSep_nil (xs : List (List α)) :
    (joinWithSep [] xs).length = (xs.map List.length).sum := by
  induction xs with
  | nil => rfl
  | cons d rest ih =>
      cases rest with
      | nil => simp [joinWithSep]
      | cons e rest' =>
          simp only [joinWithSep, List.map_cons, List.sum_cons,
            List.length_append, List.length_nil] at *
          omega

/-- A document emitted by `join_docs` with the empty separator is at most
as long as the summed length of the window it joins. -/
theorem join_docs_nil_length (cur : List (List Char)) (d : List Char)
    (h : join_docs [] cur = some d) : d.length ≤ (cur.map List.length).sum := by
  unfold join_docs at h
  split at h
  · exact absurd h (by simp)
  · have hd : d = pyStrip (joinWithSep [] cur) := by
      cases h
      rfl
    rw [hd]
    calc (pyStrip (joinWithSep [] cur)).length
        ≤ (joinWithSep [] cur).length := length_pyStrip_le _
      _ = (cur.map List.length).sum := length_joinWithSep_nil _

/-- Specification of the pop loop at separator length 0: it preserves the
"running total = summed window length" invariant and stops in a state
where the incoming piece fits (or the window is empty). -/
theorem popLoop_spec (cs co lenD : Nat) (cur : List (List Char)) (total : Nat)
    (h : total = (cur.map List.length).sum) :
    (popLoop cs co 0 lenD cur total).2
        = ((popLoop cs co 0 lenD cur total).1.map List.length).sum
    ∧ ((popLoop cs co 0 lenD cur total).2 + lenD ≤ cs
       ∨ (popLoop cs co 0 lenD cur total).2 = 0) := by
  induction cur generalizing total with
  | nil =>
      simp only [List.map_nil, List.sum_nil] at h
      subst h
      simp [popLoop]
  | cons c rest ih =>
      simp only [List.map_cons, List.sum_cons] at h
      unfold popLoop
      split
      · have hrest : total - (c.length + if rest.isEmpty then 0 else 0)
            = (rest.map List.length).sum := by
          have : (if rest.isEmpty then 0 else 0) = 0 := by
            split <;> rfl
          omega
        exact ih _ hrest
      · next hcond =>
          refine ⟨h, ?_⟩
          simp only [Bool.or_eq_true, Bool.and_eq_true, decide_eq_true_eq,
            not_or, not_and] at hcond
          omega

/-- Flushing the window into `docs` keeps every emitted document within
`chunk_size` when the window total does. -/
theorem flush_docs_bound (cs : Nat) (docs cur : List (List Char)) (total : Nat)
    (htot : total = (cur.map List.length).sum) (hle : total ≤ cs)
    (hdocs : ∀ d ∈ docs, d.length ≤ cs) :
    ∀ x ∈ (match join_docs [] cur with
           | none => docs
           | some dd => docs ++ [dd]), x.length ≤ cs := by
  intro x hx
  cases hj : join_docs [] cur with
  | none =>
      rw [hj] at hx
      have hx' : x ∈ docs := hx
      exact hdocs x hx'
  | some jd =>
      rw [hj] at hx
      have hx' : x ∈ docs ++ [jd] := hx
      rcases List.mem_append.mp hx' with h | h
      · exact hdocs x h
      · have hxj : x = jd := by simpa using h
        subst hxj
        have := join_docs_nil_length cur x hj
        omega

/-- Every document produced by the merge loop (empty separator) fits in
`chunk_size`, provided the incoming pieces are each strictly shorter than
`chunk_size` and the accumulated state is within bounds. -/
theorem merge_splits_go_bound (cs co : Nat) (splits : List (List Char)) :
    ∀ (docs cur : List (List Char)) (total : Nat),
    total = (cur.map List.length).sum → total ≤ cs →
    (∀ d ∈ docs, d.length ≤ cs) → (∀ s ∈ splits, s.length < cs) →
    ∀ d ∈ merge_splits_go cs co [] docs cur total splits, d.length ≤ cs := by
  induction splits with
  | nil =>
      intro docs cur total htot hle hdocs _ d hd
      unfold merge_splits_go at hd
      exact flush_docs_bound cs docs cur total htot hle hdocs d hd
  | cons s rest ih =>
      intro docs cur total htot hle hdocs hsplits d hd
      have hs : s.length < cs := hsplits s (by simp)
      have hrest : ∀ x ∈ rest, x.length < cs := fun x hx => hsplits x (by simp [hx])
      unfold merge_splits_go at hd
      simp only [List.length_nil, ite_self, Nat.add_zero] at hd
      split at hd
      · next hcond =>
          have hpop := popLoop_spec cs co s.length cur total htot
          have h1 : (popLoop cs co 0 s.length cur total).2 + s.length
              = (((popLoop cs co 0 s.length cur total).1 ++ [s]).map List.length).sum := by
            rw [List.map_append]
            simp only [List.map_cons, List.map_nil, List.sum_append,
              List.sum_cons, List.sum_nil]
            omega
          have h2 : (popLoop cs co 0 s.length cur total).2 + s.length ≤ cs := by
            rcases hpop.2 with hfit | hzero <;> omega
          exact ih _ _ _ h1 h2
            (flush_docs_bound cs docs cur total htot hle hdocs) hrest d hd
      · next hcond =>
          simp only [Bool.and_eq_true, decide_eq_true_eq, Bool.not_eq_true',
            not_and] at hcond
          have h1 : total + s.length = ((cur ++ [s]).map List.length).sum := by
            rw [List.map_append]
            simp only [List.map_cons, List.map_nil, List.sum_append,
              List.sum_cons, List.sum_nil]
            omega
          have h2 : total + s.length ≤ cs := by
            by_cases hce : cur.isEmpty = true
            · have htz : total = 0 := by
                cases cur with
                | nil => simpa using htot
                | cons a b => simp at hce
              omega
            · by_cases hover : total + s.length > cs
              · exact absurd (by simpa using hce) (hcond hover)
              · omega
          exact ih _ _ _ h1 h2 hdocs hrest d hd

/-- The wrapper `merge_splits` at the empty separator keeps every chunk
within `chunk_size` when each piece is strictly shorter than it. -/
theorem merge_splits_bound (cs co : Nat) (splits : List (List Char))
    (h : ∀ s ∈ splits, s.length < cs) :
    ∀ d ∈ merge_splits cs co [] splits, d.length ≤ cs :=
  merge_splits_go_bound cs co splits [] [] 0 rfl (Nat.zero_le cs) (by simp) h

/-- Flushing the good-splits accumulator preserves the chunk-size bound. -/
theorem split_flush_bound (cs co : Nat) (final good : List (List Char))
    (hfinal : ∀ c ∈ final, c.length ≤ cs) (hgood : ∀ s ∈ good, s.length < cs) :
    ∀ c ∈ (if good.isEmpty then final else final ++ merge_splits cs co [] good),
      c.length ≤ cs := by
  intro c hc
  split at hc
  · exact hfinal c hc
  · rcases List.mem_append.mp hc with h | h
    · exact hfinal c h
    · exact merge_splits_bound cs co good hgood c h

/-- The `_split_text` loop with no remaining separators keeps every chunk
within `chunk_size`, provided the raw pieces it may append are themselves
within the bound. -/
theorem split_text_go_bound_none (cs co : Nat) (splits : List (List Char)) :
    ∀ (final good : List (List Char)),
    (∀ c ∈ final, c.length ≤ cs) → (∀ s ∈ good, s.length < cs) →
    (∀ s ∈ splits, s.length ≤ cs) →
    ∀ c ∈ split_text_go cs co none final good splits, c.length ≤ cs := by
  induction splits with
  | nil =>
      intro final good hfinal hgood _ c hc
      unfold split_text_go at hc
      exact split_flush_bound cs co final good hfinal hgood c hc
  | cons s rest ih =>
      intro final good hfinal hgood hsplits c hc
      unfold split_text_go at hc
      split at hc
      · next hlt =>
          refine ih final (good ++ [s]) hfinal ?_
            (fun x hx => hsplits x (by simp [hx])) c hc
          intro x hx
          rcases List.mem_append.mp hx with h | h
          · exact hgood x h
          · have : x = s := by simpa using h
            subst this
            exact hlt
      · refine ih _ [] ?_ (by simp) (fun x hx => hsplits x (by simp [hx])) c hc
        intro x hx
        rcases List.mem_append.mp hx with h | h
        · exact split_flush_bound cs co final good hfinal hgood x h
        · have : x = s := by simpa using h
          subst this
          exact hsplits x (by simp)

/-- The `_split_text` loop with a recursive splitter for oversized pieces
keeps every chunk within `chunk_size`, provided the recursive splitter
does. -/
theorem split_text_go_bound_some (cs co : Nat)
    (f : List Char → List (List Char))
    (hf : ∀ t, ∀ c ∈ f t, c.length ≤ cs) (splits : List (List Char)) :
    ∀ (final good : List (List Char)),
    (∀ c ∈ final, c.length ≤ cs) → (∀ s ∈ good, s.length < cs) →
    ∀ c ∈ split_text_go cs co (some f) final good splits, c.length ≤ cs := by
  induction splits with
  | nil =>
      intro final good hfinal hgood c hc
      unfold split_text_go at hc
      exact split_flush_bound cs co final good hfinal hgood c hc
  | cons s rest ih =>
      intro final good hfinal hgood c hc
      unfold split_text_go at hc
      split at hc
      · next hlt =>
          refine ih final (good ++ [s]) hfinal ?_ c hc
          intro x hx
          rcases List.mem_append.mp hx with h | h
          · exact hgood x h
          · have : x = s := by simpa using h
            subst this
            exact hlt
      · refine ih _ [] ?_ (by simp) c hc
        intro x hx
        rcases List.mem_append.mp hx with h | h
        · exact split_flush_bound cs co final good hfinal hgood x h
        · exact hf s x h

/-- At the last-resort separator `""` every piece is a single character,
so every chunk fits in any `chunk_size ≥ 1`. -/
theorem split_level_char_bound (cs co : Nat) (h1 : 1 ≤ cs) (text : List Char) :
    ∀ c ∈ split_level_char cs co text, c.length ≤ cs := by
  unfold split_level_char
  apply split_text_go_bound_none cs co _ [] [] (by simp) (by simp)
  intro s hs
  obtain ⟨x, _, rfl⟩ := List.mem_map.mp hs
  simpa using h1

/-- Chunk-size bound at separator list `[" ", ""]`. -/
theorem split_level_space_bound (cs co : Nat) (h1 : 1 ≤ cs) (text : List Char) :
    ∀ c ∈ split_level_space cs co text, c.length ≤ cs := by
  unfold split_level_space
  split
  · exact split_text_go_bound_some cs co _
      (fun t => split_level_char_bound cs co h1 t) _ [] [] (by simp) (by simp)
  · exact split_level_char_bound cs co h1 text

/-- Chunk-size bound at separator list `["\n", " ", ""]`. -/
theorem split_level_newline_bound (cs co : Nat) (h1 : 1 ≤ cs) (text : List Char) :
    ∀ c ∈ split_level_newline cs co text, c.length ≤ cs := by
  unfold split_level_newline
  split
  · exact split_text_go_bound_some cs co _
      (fun t => split_level_space_bound cs co h1 t) _ [] [] (by simp) (by simp)
  · exact split_level_space_bound cs co h1 text

/-- Chunk-size bound at the full default separator list. -/
theorem split_level_para_bound (cs co : Nat) (h1 : 1 ≤ cs) (text : List Char) :
    ∀ c ∈ split_level_para cs co text, c.length ≤ cs := by
  unfold split_level_para
  split
  · exact split_text_go_bound_some cs co _
      (fun t => split_level_newline_bound cs co h1 t) _ [] [] (by simp) (by simp)
  · exact split_level_newline_bound cs co h1 text

/-! ## Claim C9 -/

/-- Claim C9 (amended): every chunk produced by `chunk_text` has length at
most the configured maximum size — unconditionally, since the default
separator list ends with `""`, whose single-character pieces make every
unit splittable.  (The round-trip half of the original claim fails; see
the counterexample.) -/
theorem c9_chunk_length_bounded (text : String) (chunk_size chunk_overlap : Nat)
    (h1 : 1 ≤ chunk_size) :
    ∀ chunk ∈ chunk_text text chunk_size chunk_overlap,
      chunk.length ≤ chunk_size := by
  intro chunk hc
  unfold chunk_text at hc
  obtain ⟨l, hl, rfl⟩ := List.mem_map.mp hc
  exact split_level_para_bound chunk_size chunk_overlap h1 text.toList l hl

/-- Witness for C9 at the repository's default configuration. -/
theorem c9_chunk_length_bounded_witness :
    (chunk_text "Dr. Evelyn Reed works for Innovate Dynamics.\n\nInnovate Dynamics is in Geneva." 1000 100).all
      (fun chunk => chunk.length ≤ 1000) = true := by
  rw [List.all_eq_true]
  intro c hc
  simpa using c9_chunk_length_bounded
    "Dr. Evelyn Reed works for Innovate Dynamics.\n\nInnovate Dynamics is in Geneva."
    1000 100 (by norm_num) c hc

/-- Counterexample for C9 as stated: chunks are whitespace-stripped, so
their concatenation (minus overlaps — here there is a single chunk and no
overlap) does not reconstruct the original text. -/
theorem c9_no_roundtrip_counterexample :
    chunk_text "hello\n" = ["hello"]
    ∧ String.join (chunk_text "hello\n") ≠ "hello\n" := by
  refine ⟨by decide, by decide⟩
